import Mathlib

/-!
html2image-go: the Chrome instance pool and the render orchestration.

A shallow embedding of `src/pool.go`, `src/main.go` and `src/config.go`.

* A browser context (`context.Context` produced by `chromedp.NewContext`) is
  identified by the index of the loop iteration of `NewChromePool` that
  created it: every call of `chromedp.NewContext` yields a new object.
* The buffered channel `p.pool` is the list of its buffered elements, oldest
  first, together with its capacity `cap(p.pool)`.  A send on a full channel
  and a receive on an empty channel block; a blocked operation is `none`.
* External collaborators (chromedp, `encoding/json`, `encoding/base64`,
  `net`) are parameters of the model, and so is the largest channel size that
  `make` accepts.
-/

namespace Html2Image

/-! ## Data model -/

/-- Identity of a browser context created by `chromedp.NewContext`. -/
abbrev Ctx := Nat

/-- Image bytes. -/
abbrev Bytes := List Nat

/-- The struct `ChromePool` of `pool.go`.  `cap` is `cap(p.pool)`, `pool` the
contents of the channel buffer (oldest first).  `out` is ghost state: the
contexts handed out by `Get` and not yet given back, one entry per outstanding
`Get`.  `allocatorCancels` counts the calls of `p.cancel`. -/
structure ChromePool where
  cap : Nat
  pool : List Ctx
  out : List Ctx
  allocatorCancels : Nat
  deriving DecidableEq, Repr

/-- Channel send `ch <- c` on a buffered channel of capacity `cap`: appends to
the buffer when there is room, blocks (`none`) when the buffer is full. -/
def chanSend (cap : Nat) (buf : List Ctx) (c : Ctx) : Option (List Ctx) :=
  if buf.length < cap then some (buf ++ [c]) else none

/-- Channel receive `<-ch`: takes the oldest buffered element, blocks (`none`)
when the buffer is empty. -/
def chanRecv (buf : List Ctx) : Option (Ctx × List Ctx) :=
  match buf with
  | [] => none
  | c :: rest => some (c, rest)

/-! ## `NewChromePool` (pool.go:21-52) -/

/-- The default applied by `NewChromePool` (pool.go:22-24). -/
def effectiveInstances (maxInstances : Int) : Int :=
  if maxInstances ≤ 0 then 5 else maxInstances

/-- The loop `for i := 0; i < maxInstances; i++` of `NewChromePool`
(pool.go:39-48), with `n` iterations left and loop counter `i`.  `warm i` tells
whether the warm-up navigation of iteration `i` succeeded; a failure only adds
a warning (the number `i+1` that is logged), the context is sent to the channel
in either case. -/
def initLoop (warm : Nat → Bool) (cap : Nat) :
    Nat → Nat → List Ctx → List Nat → Option (List Ctx × List Nat)
  | 0, _, buf, warnings => some (buf, warnings)
  | n + 1, i, buf, warnings =>
    let ctx : Ctx := i
    let warnings1 := if warm i then warnings else warnings ++ [i + 1]
    match chanSend cap buf ctx with
    | none => none
    | some buf1 => initLoop warm cap n (i + 1) buf1 warnings1

/-- What `NewChromePool` returns: the pool, the `error` value and the warm-up
warnings it logged. -/
structure NewPoolResult where
  pool : ChromePool
  err : Option String
  warnings : List Nat
  deriving DecidableEq, Repr

/-- How a call ends: it returns a value, it panics, or it blocks for ever. -/
inductive Outcome (α : Type) where
  | returned (a : α)
  | panicked (msg : String)
  | blocked
  deriving DecidableEq, Repr

/-- The bound of the Go runtime on the size of a channel of `context.Context`
on a 64-bit platform: `makechan` panics when `size * 16` exceeds
`maxAlloc - hchanSize`, with `maxAlloc = 2^48` and `hchanSize = 96`. -/
def goChanLimit : Nat :=
  (2 ^ 48 - 96) / 16

/-- The function `NewChromePool` (pool.go:21-52).  `chanLimit` is the largest
size for which `make(chan context.Context, size)` at pool.go:35 succeeds on the
machine (at most `goChanLimit`); above it `make` panics and no pool is built.
`blocked` would mean that a send of the fill loop blocks. -/
def NewChromePool (chanLimit : Nat) (maxInstances : Int) (warm : Nat → Bool) :
    Outcome NewPoolResult :=
  let m := (effectiveInstances maxInstances).toNat
  if chanLimit < m then .panicked "makechan: size out of range"
  else
    match initLoop warm m m 0 [] [] with
    | none => .blocked
    | some (buf, warnings) =>
      .returned { pool := { cap := m, pool := buf, out := [], allocatorCancels := 0 },
                  err := none,
                  warnings := warnings }

/-! ## `Get` and `Return` (pool.go:54-65) -/

/-- The method `ChromePool.Get`: `return <-p.pool`. -/
def ChromePool.Get (p : ChromePool) : Option (Ctx × ChromePool) :=
  match chanRecv p.pool with
  | none => none
  | some (c, rest) => some (c, { p with pool := rest, out := c :: p.out })

/-- The method `ChromePool.Return`: `p.pool <- ctx`. -/
def ChromePool.Return (p : ChromePool) (ctx : Ctx) : Option ChromePool :=
  match chanSend p.cap p.pool ctx with
  | none => none
  | some buf => some { p with pool := buf, out := p.out.erase ctx }

/-- States reachable from the pool that `NewChromePool chanLimit maxInstances
warm` returns by `Get` and by `Return` of a context that is currently checked
out. -/
inductive Reachable (chanLimit : Nat) (maxInstances : Int) (warm : Nat → Bool) :
    ChromePool → Prop
  | init (r : NewPoolResult)
      (h : NewChromePool chanLimit maxInstances warm = .returned r) :
      Reachable chanLimit maxInstances warm r.pool
  | get (s s1 : ChromePool) (c : Ctx) (hs : Reachable chanLimit maxInstances warm s)
      (h : s.Get = some (c, s1)) : Reachable chanLimit maxInstances warm s1
  | ret (s s1 : ChromePool) (c : Ctx) (hs : Reachable chanLimit maxInstances warm s)
      (hc : c ∈ s.out) (h : s.Return c = some s1) : Reachable chanLimit maxInstances warm s1

/-! ## `getPoolSizeFromEnv` (pool.go:132-144) -/

/-- Value of a decimal digit character, `none` for any other character. -/
def digitVal (c : Char) : Option Nat :=
  if '0' ≤ c ∧ c ≤ '9' then some (c.toNat - '0'.toNat) else none

/-- Accumulates decimal digits, most significant first. -/
def parseDigitsAux : List Char → Nat → Option Nat
  | [], acc => some acc
  | c :: cs, acc =>
    match digitVal c with
    | none => none
    | some d => parseDigitsAux cs (acc * 10 + d)

/-- A non-empty sequence of decimal digits as a number. -/
def parseDigits (cs : List Char) : Option Nat :=
  match cs with
  | [] => none
  | _ => parseDigitsAux cs 0

/-- The library function `strconv.Atoi` for a 64-bit `int`: an optional sign
`+` or `-`, then one or more decimal digits, the value within
`[-2^63, 2^63 - 1]`; anything else is an error (`none`). -/
def Atoi (s : String) : Option Int :=
  match s.toList with
  | [] => none
  | c :: rest =>
    let neg := c == '-'
    let ds := if c == '-' || c == '+' then rest else c :: rest
    match parseDigits ds with
    | none => none
    | some n =>
      if neg then (if n ≤ 2 ^ 63 then some (-(n : Int)) else none)
      else (if n < 2 ^ 63 then some (n : Int) else none)

/-- The library function `os.Getenv`: the value of the variable, the empty
string when it is not set. -/
def Getenv (setting : Option String) : String :=
  setting.getD ""

/-- The function `getPoolSizeFromEnv`; `setting` is the environment variable
`CHROME_POOL_SIZE` (`none` when unset). -/
def getPoolSizeFromEnv (setting : Option String) : Int :=
  let sizeStr := Getenv setting
  if sizeStr = "" then 5
  else
    match Atoi sizeStr with
    | none => 5
    | some size => if size ≤ 0 then 5 else size

/-- The pool built at startup by `main` (main.go:36):
`NewChromePool(getPoolSizeFromEnv())`. -/
def mainPool (chanLimit : Nat) (setting : Option String) (warm : Nat → Bool) :
    Outcome NewPoolResult :=
  NewChromePool chanLimit (getPoolSizeFromEnv setting) warm

/-- The capacity `cap(p.pool)` of a constructed pool, as an `int`; `none` when
no pool was built. -/
def capacityOf (r : Outcome NewPoolResult) : Option Int :=
  match r with
  | .returned x => some (x.pool.cap : Int)
  | .panicked _ => none
  | .blocked => none

/-! ## `Shutdown` (pool.go:67-91) -/

/-- The environment of one `select` of the drain loop: the contexts that
concurrent `Return` calls have sent since the previous `select` (or send while
this one waits), and whether the 60 s timer has already fired and the `select`
takes its case although a context could be received. -/
structure SelectEnv where
  arrivals : List Ctx
  timeoutFirst : Bool
  deriving DecidableEq, Repr

/-- State of the drain loop when it is left: the contexts given to
`chromedp.Cancel` (in order), the counter `closed`, whether the timeout case was
taken, the warning it logged (`closed`, `cap(p.pool)`), and what is left in the
channel buffer. -/
structure DrainResult where
  cancelled : List Ctx
  closed : Nat
  timedOut : Bool
  report : Option (Nat × Nat)
  buffer : List Ctx
  deriving DecidableEq, Repr

/-- The loop `for i := 0; i < cap(p.pool); i++ { select ... }` of `Shutdown`,
with `n` iterations left and loop counter `i`.  Senders that found the buffer
full wait in `waiting` and proceed as soon as there is room, also after the
last receive.  When nothing can be received the `select` waits until the timer
fires, which `time.After` guarantees to happen, and takes the timeout case. -/
def drainLoop (env : Nat → SelectEnv) (cap : Nat) :
    Nat → Nat → List Ctx → List Ctx → List Ctx → Nat → DrainResult
  | 0, _, buf, _, cancelled, closed =>
    { cancelled := cancelled, closed := closed, timedOut := false, report := none,
      buffer := buf }
  | n + 1, i, buf, waiting, cancelled, closed =>
    let all := buf ++ waiting ++ (env i).arrivals
    let buf1 := all.take cap
    let waiting1 := all.drop cap
    if (env i).timeoutFirst then
      { cancelled := cancelled, closed := closed, timedOut := true,
        report := some (closed, cap), buffer := buf1 }
    else
      match chanRecv buf1 with
      | none =>
        { cancelled := cancelled, closed := closed, timedOut := true,
          report := some (closed, cap), buffer := buf1 }
      | some (ctx, rest) =>
        let all2 := rest ++ waiting1
        drainLoop env cap n (i + 1) (all2.take cap) (all2.drop cap) (cancelled ++ [ctx])
          (closed + 1)

/-- What `Shutdown` did: the outcome of the drain loop and the pool afterwards
(`allocatorCancels` counts the calls of `p.cancel`). -/
structure ShutdownResult where
  drain : DrainResult
  pool : ChromePool
  deriving DecidableEq, Repr

/-- The method `ChromePool.Shutdown`: the drain loop, then the label `cleanup`
with `p.cancel()`. -/
def ChromePool.Shutdown (p : ChromePool) (env : Nat → SelectEnv) : ShutdownResult :=
  let d := drainLoop env p.cap p.cap 0 p.pool [] [] 0
  { drain := d,
    pool := { p with pool := d.buffer, allocatorCancels := p.allocatorCancels + 1 } }

/-- An environment in which no `Return` arrives and the timer does not fire
while a context can be received. -/
def quietEnv : Nat → SelectEnv :=
  fun _ => { arrivals := [], timeoutFirst := false }

/-- An environment in which no `Return` arrives and the first `chromedp.Cancel`
lasts longer than 60 s: at the second `select` the timer has fired and the
`select` takes its case. -/
def slowCancelEnv : Nat → SelectEnv :=
  fun i => { arrivals := [], timeoutFirst := decide (i = 1) }

/-! ## The readiness predicates (main.go:191-194, main.go:253-256, config.go) -/

/-- An `img` element as the predicates see it. -/
structure Img where
  complete : Bool
  naturalHeight : Nat
  deriving DecidableEq, Repr

/-- The page state the predicates inspect: `document.readyState` and the `img`
elements of the document. -/
structure Page where
  readyState : String
  imgs : List Img
  deriving DecidableEq, Repr

/-- The script polled by `HTMLToImage` (main.go:191-194). -/
def htmlToImagePoll (pg : Page) : Bool :=
  pg.readyState == "complete" &&
    pg.imgs.all (fun img => img.complete && decide (img.naturalHeight > 0))

/-- The script polled by `HTMLToImageWithServer` (main.go:253-256). -/
def htmlToImageWithServerPoll (pg : Page) : Bool :=
  pg.readyState == "complete" &&
    pg.imgs.all (fun img => img.complete && decide (img.naturalHeight > 0))

/-- The property `window.pollStartTime`: `none` while undefined. -/
structure Window where
  pollStartTime : Option Int
  deriving DecidableEq, Repr

/-- The value of `window.pollStartTime || (window.pollStartTime = Date.now())`
(config.go:6): the stored time when it is truthy, else the current time. -/
def pollStart (w : Window) (now : Int) : Int :=
  match w.pollStartTime with
  | some t => if t ≠ 0 then t else now
  | none => now

/-- The value `elapsed` of config.go:7. -/
def pollElapsed (w : Window) (now : Int) : Int :=
  now - pollStart w now

/-- The script `POLL_FUNCTION` (config.go:3-21), evaluated at time `now`
(`Date.now()`), with the window after the evaluation. -/
def POLL_FUNCTION (w : Window) (now : Int) (pg : Page) : Bool × Window :=
  let startTime := pollStart w now
  let w1 : Window := { pollStartTime := some startTime }
  let elapsed := now - startTime
  if elapsed > 2000 then (true, w1)
  else
    let imgLoaded := pg.imgs.length == 0 || pg.imgs.all (fun img => img.complete)
    (imgLoaded, w1)

/-! ## The chromedp tasks of the two strategies (main.go:175-266) -/

/-- The actions of a `chromedp.Tasks` list. -/
inductive Action where
  | navigate
  | waitVisible
  | poll
  | fullScreenshot
  deriving DecidableEq, Repr

/-- The browser behind one context, as far as the tasks use it.  An action
gives its result and the milliseconds it takes.  `frames url` lists the
evaluations of the poll script on the page loaded from `url`: the milliseconds
since the poll began and the page state at that moment, in order of time. -/
structure Chrome where
  navigate : String → Except String Unit × Nat
  waitVisible : String → Except String Unit × Nat
  frames : String → List (Nat × Page)
  fullScreenshot : String → Nat → Except String Bytes × Nat

/-- The timeout of `taskCtx` in both strategies (main.go:179, main.go:242), in
milliseconds. -/
def taskDeadline : Nat := 30000

/-- The polling timeout given to `chromedp.Poll` (main.go:194, main.go:256), in
milliseconds. -/
def pollTimeout : Nat := 15000

/-- The action `chromedp.Poll` with `WithPollingTimeout(timeoutMs)`: succeeds at
the first evaluation before the timeout at which the script is true, fails with
the polling-timeout error otherwise.  The second component is the time since
the poll began at which it ended. -/
def chromedpPoll (pred : Page → Bool) (timeoutMs : Nat) :
    List (Nat × Page) → Except String Unit × Nat
  | [] => (.error "waiting for function failed: timeout", timeoutMs)
  | (t, pg) :: rest =>
    if timeoutMs ≤ t then (.error "waiting for function failed: timeout", timeoutMs)
    else if pred pg then (.ok (), t)
    else chromedpPoll pred timeoutMs rest

/-- One run of a strategy: the returned `([]byte, error)`, the actions that
were started, and the time at which the poll ended when it ran. -/
structure TaskRun where
  result : Except String Bytes
  actions : List Action
  pollEnd : Option Nat

/-- The action `chromedp.Poll` under the deadline of `taskCtx`, with `left`
milliseconds of the deadline remaining when the poll begins: the polling
timeout applies when it comes first, else the poll is cut off by the deadline
with the error of the context. -/
def pollUnderDeadline (pred : Page → Bool) (left : Nat) (frames : List (Nat × Page)) :
    Except String Unit × Nat :=
  if pollTimeout ≤ left then chromedpPoll pred pollTimeout frames
  else
    match chromedpPoll pred left frames with
    | (.ok u, t) => (.ok u, t)
    | (.error _, t) => (.error "context deadline exceeded", t)

/-- The call `chromedp.Run(taskCtx, tasks)` for the task list of both
strategies: navigate, wait for `body`, poll, full screenshot, all under the
30 s deadline of `taskCtx`.  The first action that fails ends the run with its
error; an action that is still running when the deadline passes ends the run
with the error of the context. -/
def runTasks (C : Chrome) (url : String) (pred : Page → Bool) (quality : Nat) : TaskRun :=
  let (r1, d1) := C.navigate url
  if taskDeadline ≤ d1 then
    { result := .error "context deadline exceeded", actions := [.navigate], pollEnd := none }
  else
    match r1 with
    | .error e => { result := .error e, actions := [.navigate], pollEnd := none }
    | .ok _ =>
      let (r2, d2) := C.waitVisible url
      if taskDeadline ≤ d1 + d2 then
        { result := .error "context deadline exceeded", actions := [.navigate, .waitVisible],
          pollEnd := none }
      else
        match r2 with
        | .error e =>
          { result := .error e, actions := [.navigate, .waitVisible], pollEnd := none }
        | .ok _ =>
          match pollUnderDeadline pred (taskDeadline - (d1 + d2)) (C.frames url) with
          | (.error e, t) =>
            { result := .error e, actions := [.navigate, .waitVisible, .poll],
              pollEnd := some t }
          | (.ok _, t) =>
            let (r4, d4) := C.fullScreenshot url quality
            if taskDeadline ≤ d1 + d2 + t + d4 then
              { result := .error "context deadline exceeded",
                actions := [.navigate, .waitVisible, .poll, .fullScreenshot],
                pollEnd := some t }
            else
              { result := r4, actions := [.navigate, .waitVisible, .poll, .fullScreenshot],
                pollEnd := some t }

/-- The error wrapping `fmt.Errorf("failed to run chromedp tasks: %w", err)`. -/
def wrapRun (r : TaskRun) : TaskRun :=
  match r.result with
  | .error e => { r with result := .error ("failed to run chromedp tasks: " ++ e) }
  | .ok _ => r

/-- The function `HTMLToImage` (main.go:176-205).  `b64` is
`base64.StdEncoding.EncodeToString`. -/
def HTMLToImage (chrome : Ctx → Chrome) (b64 : String → String) (browserCtx : Ctx)
    (htmlContent : String) : TaskRun :=
  let dataURL := "data:text/html;charset=utf-8;base64," ++ b64 htmlContent
  wrapRun (runTasks (chrome browserCtx) dataURL htmlToImagePoll 100)

/-- The network as `HTMLToImageWithServer` uses it: `net.Listen("tcp", ":0")`
with the port it was given, and the error of `server.ListenAndServe` when the
server fails to start within 100 ms. -/
structure Net where
  listen : Except String Nat
  serverErr : Nat → Option String

/-- The function `HTMLToImageWithServer` (main.go:208-266). -/
def HTMLToImageWithServer (chrome : Ctx → Chrome) (net : Net) (browserCtx : Ctx)
    (_htmlContent : String) : TaskRun :=
  match net.listen with
  | .error e =>
    { result := .error ("failed to find available port: " ++ e), actions := [], pollEnd := none }
  | .ok port =>
    match net.serverErr port with
    | some e =>
      { result := .error ("failed to start HTTP server: " ++ e), actions := [], pollEnd := none }
    | none =>
      let url := "http://localhost:" ++ toString port
      wrapRun (runTasks (chrome browserCtx) url htmlToImageWithServerPoll 90)

/-! ## `handleConvert` (main.go:77-173) -/

/-- The two delivery strategies, named after the functions that implement them. -/
inductive Strategy where
  | inlineEmbed
  | localServe
  deriving DecidableEq, Repr

/-- The struct `ConvertRequest`. -/
structure ConvertRequest where
  HTML : String
  HTMLBase64 : String
  UseLocalServer : Bool
  deriving DecidableEq, Repr

/-- The struct `ConvertResponse`. -/
structure ConvertResponse where
  Success : Bool
  Data : String
  Error : String
  deriving DecidableEq, Repr

/-- The part of `*http.Request` the handler reads. -/
structure HttpRequest where
  Method : String
  Body : String
  deriving DecidableEq, Repr

/-- The collaborators of `handleConvert`: JSON decoding of the body, base64
decoding and encoding, and the two strategies (`HTMLToImage`,
`HTMLToImageWithServer`) as functions from the borrowed context and the HTML to
image bytes or an error. -/
structure Env where
  decodeJSON : String → Except String ConvertRequest
  base64Decode : String → Except String String
  base64Encode : Bytes → String
  htmlToImage : Ctx → String → Except String Bytes
  htmlToImageWithServer : Ctx → String → Except String Bytes

/-- Whether a strategy returned a non-nil error. -/
def failed (r : Except String Bytes) : Bool :=
  match r with
  | .error _ => true
  | .ok _ => false

/-- Runs one strategy and records the call. -/
def callStrategy (E : Env) (s : Strategy) (browserCtx : Ctx) (htmlContent : String)
    (calls : List Strategy) : Except String Bytes × List Strategy :=
  match s with
  | .inlineEmbed => (E.htmlToImage browserCtx htmlContent, calls ++ [.inlineEmbed])
  | .localServe => (E.htmlToImageWithServer browserCtx htmlContent, calls ++ [.localServe])

/-- The render step of `handleConvert` (main.go:137-151): the pair
`imgBytes, err` and the strategy calls made, in order. -/
def renderStep (E : Env) (browserCtx : Ctx) (htmlContent : String) (useLocalServer : Bool) :
    Except String Bytes × List Strategy :=
  if useLocalServer then
    callStrategy E .localServe browserCtx htmlContent []
  else
    match callStrategy E .inlineEmbed browserCtx htmlContent [] with
    | (.error _, calls) => callStrategy E .localServe browserCtx htmlContent calls
    | (.ok imgBytes, calls) => (.ok imgBytes, calls)

/-- What the handler wrote: the status code, the JSON response, and the strategy
calls it made. -/
structure HandlerResult where
  status : Nat
  resp : ConvertResponse
  calls : List Strategy
  deriving DecidableEq, Repr

/-- The body of `handleConvert` after the `defer` (main.go:109-173). -/
def convertBody (E : Env) (browserCtx : Ctx) (req : ConvertRequest) : HandlerResult :=
  let render (htmlContent : String) : HandlerResult :=
    match renderStep E browserCtx htmlContent req.UseLocalServer with
    | (.error e, calls) =>
      { status := 500, resp := { Success := false, Data := "", Error := "转换失败: " ++ e },
        calls := calls }
    | (.ok imgBytes, calls) =>
      { status := 200, resp := { Success := true, Data := E.base64Encode imgBytes, Error := "" },
        calls := calls }
  if req.HTMLBase64 ≠ "" then
    match E.base64Decode req.HTMLBase64 with
    | .error e =>
      { status := 400, resp := { Success := false, Data := "", Error := "无效的 base64 编码: " ++ e },
        calls := [] }
    | .ok decodedHTML => render decodedHTML
  else if req.HTML ≠ "" then
    render req.HTML
  else
    { status := 400,
      resp := { Success := false, Data := "",
                Error := "HTML 内容不能为空（请提供 'html' 或 'html_base64' 字段）" },
      calls := [] }

/-- A call of a pool method. -/
inductive PoolEvent where
  | get (c : Ctx)
  | ret (c : Ctx)
  deriving DecidableEq, Repr

/-- The global `chromePool` together with the record of the calls of its
methods `Get` and `Return`. -/
structure TracedPool where
  pool : ChromePool
  log : List PoolEvent
  deriving DecidableEq, Repr

/-- The call `chromePool.Get()`, recorded. -/
def TracedPool.Get (tp : TracedPool) : Option (Ctx × TracedPool) :=
  match tp.pool.Get with
  | none => none
  | some (c, p1) => some (c, { pool := p1, log := tp.log ++ [.get c] })

/-- The call `chromePool.Return(ctx)`, recorded. -/
def TracedPool.Return (tp : TracedPool) (ctx : Ctx) : Option TracedPool :=
  match tp.pool.Return ctx with
  | none => none
  | some p1 => some { pool := p1, log := tp.log ++ [.ret ctx] }

/-- The function `handleConvert` (main.go:78-173) on the global `chromePool`.
`none` means that the handler blocks in a pool operation. -/
def handleConvert (E : Env) (chromePool : TracedPool) (r : HttpRequest) :
    Option (HandlerResult × TracedPool) :=
  if r.Method ≠ "POST" then
    some ({ status := 405, resp := { Success := false, Data := "", Error := "只支持 POST 请求" },
            calls := [] }, chromePool)
  else
    match E.decodeJSON r.Body with
    | .error e =>
      some ({ status := 400,
              resp := { Success := false, Data := "", Error := "无效的请求格式: " ++ e },
              calls := [] }, chromePool)
    | .ok req =>
      match chromePool.Get with
      | none => none
      | some (browserCtx, pool1) =>
        let res := convertBody E browserCtx req
        match pool1.Return browserCtx with
        | none => none
        | some pool2 => some (res, pool2)

/-- The collaborators of `handleConvert` with the two strategies bound to the
functions `HTMLToImage` and `HTMLToImageWithServer` of main.go. -/
def liveEnv (chrome : Ctx → Chrome) (net : Net)
    (decodeJSON : String → Except String ConvertRequest)
    (base64Decode : String → Except String String) (b64 : String → String)
    (base64Encode : Bytes → String) : Env :=
  { decodeJSON := decodeJSON,
    base64Decode := base64Decode,
    base64Encode := base64Encode,
    htmlToImage := fun c h => (HTMLToImage chrome b64 c h).result,
    htmlToImageWithServer := fun c h => (HTMLToImageWithServer chrome net c h).result }

/-! ## Concrete scenarios -/

/-- An `img` whose source is unreachable: loading has ended (`complete`) with
no picture (`naturalHeight` 0). -/
def brokenImg : Img :=
  { complete := true, naturalHeight := 0 }

/-- A fully loaded document with one broken image. -/
def brokenPage : Page :=
  { readyState := "complete", imgs := [brokenImg] }

/-- A browser in which navigation, the wait for `body` and the screenshot all
succeed quickly and the page shows the broken image at every evaluation of the
poll script. -/
def brokenChrome : Ctx → Chrome :=
  fun _ =>
    { navigate := fun _ => (.ok (), 120),
      waitVisible := fun _ => (.ok (), 30),
      frames := fun _ => [(0, brokenPage), (2500, brokenPage), (14000, brokenPage)],
      fullScreenshot := fun _ _ => (.ok [137, 80, 78, 71], 200) }

/-- A network on which the local server starts on port 40000. -/
def okNet : Net :=
  { listen := .ok 40000, serverErr := fun _ => none }

/-- A stand-in for the JSON decoder: an empty body is an error, any other body
is taken as the field `html`. -/
def demoDecode (body : String) : Except String ConvertRequest :=
  if body = "" then .error "EOF"
  else .ok { HTML := body, HTMLBase64 := "", UseLocalServer := false }

/-- The handler environment of the broken-image scenario. -/
def brokenEnv : Env :=
  liveEnv brokenChrome okNet demoDecode (fun x => .ok x) (fun x => x) (fun _ => "aW1n")

/-- A pool of capacity 2 with both contexts buffered and no call recorded. -/
def demoPool : TracedPool :=
  { pool := { cap := 2, pool := [0, 1], out := [], allocatorCancels := 0 }, log := [] }

/-! ## Theorems -/

/-! ## Lemmas on the fill loop -/

theorem initLoop_eq (warm : Nat → Bool) (cap : Nat) :
    ∀ (n i : Nat) (buf : List Ctx) (warnings : List Nat), buf.length + n ≤ cap →
      initLoop warm cap n i buf warnings =
        some (buf ++ List.range' i n,
          warnings ++ ((List.range' i n).filter (fun j => !warm j)).map (· + 1)) := by
  intro n
  induction n with
  | zero => intro i buf warnings _; simp [initLoop]
  | succ n ih =>
    intro i buf warnings h
    have hlt : buf.length < cap := by omega
    have hlen : (buf ++ [i]).length + n ≤ cap := by simp; omega
    simp only [initLoop, chanSend, hlt, if_true]
    rw [ih (i + 1) (buf ++ [i]) _ hlen]
    cases hw : warm i <;> simp [List.range'_succ, List.filter_cons, hw]

theorem NewChromePool_eq (chanLimit : Nat) (maxInstances : Int) (warm : Nat → Bool)
    (hfit : (effectiveInstances maxInstances).toNat ≤ chanLimit) :
    NewChromePool chanLimit maxInstances warm =
      .returned { pool := { cap := (effectiveInstances maxInstances).toNat,
                            pool := List.range (effectiveInstances maxInstances).toNat,
                            out := [], allocatorCancels := 0 },
                  err := none,
                  warnings := ((List.range (effectiveInstances maxInstances).toNat).filter
                    (fun j => !warm j)).map (· + 1) } := by
  unfold NewChromePool
  simp only []
  rw [if_neg (by omega), initLoop_eq warm _ _ 0 [] [] (by simp)]
  simp [List.range_eq_range']

theorem NewChromePool_panics (chanLimit : Nat) (maxInstances : Int) (warm : Nat → Bool)
    (hbig : chanLimit < (effectiveInstances maxInstances).toNat) :
    NewChromePool chanLimit maxInstances warm = .panicked "makechan: size out of range" := by
  unfold NewChromePool
  simp only []
  rw [if_pos hbig]

theorem NewChromePool_returned (chanLimit : Nat) (maxInstances : Int) (warm : Nat → Bool)
    (r : NewPoolResult) (h : NewChromePool chanLimit maxInstances warm = .returned r) :
    (effectiveInstances maxInstances).toNat ≤ chanLimit := by
  by_cases hbig : chanLimit < (effectiveInstances maxInstances).toNat
  · rw [NewChromePool_panics chanLimit maxInstances warm hbig] at h
    exact absurd h (by simp)
  · omega

theorem effectiveInstances_pos (maxInstances : Int) :
    1 ≤ (effectiveInstances maxInstances).toNat := by
  unfold effectiveInstances
  split <;> omega

/-! ## Lemmas on `Get` and `Return` -/

theorem Get_eq_some (s s1 : ChromePool) (c : Ctx) (h : s.Get = some (c, s1)) :
    ∃ rest, s.pool = c :: rest ∧ s1 = { s with pool := rest, out := c :: s.out } := by
  unfold ChromePool.Get chanRecv at h
  cases hp : s.pool with
  | nil => simp [hp] at h
  | cons d rest =>
    simp only [hp, Option.some.injEq, Prod.mk.injEq] at h
    obtain ⟨h1, h2⟩ := h
    subst h1
    exact ⟨rest, rfl, h2.symm⟩

theorem Get_eq_none (s : ChromePool) : s.Get = none ↔ s.pool = [] := by
  unfold ChromePool.Get chanRecv
  cases hp : s.pool <;> simp

theorem Return_eq_some (s s1 : ChromePool) (c : Ctx) (h : s.Return c = some s1) :
    s.pool.length < s.cap ∧ s1 = { s with pool := s.pool ++ [c], out := s.out.erase c } := by
  unfold ChromePool.Return chanSend at h
  by_cases hlt : s.pool.length < s.cap
  · simp only [hlt, if_true, Option.some.injEq] at h
    exact ⟨hlt, h.symm⟩
  · simp [hlt] at h

theorem Return_of_room (s : ChromePool) (c : Ctx) (h : s.pool.length < s.cap) :
    s.Return c = some { s with pool := s.pool ++ [c], out := s.out.erase c } := by
  simp [ChromePool.Return, chanSend, h]

/-- The invariant of the pool: fixed capacity, conservation of contexts, and no
context twice among the buffered and the checked-out ones. -/
theorem reachable_inv (chanLimit : Nat) (maxInstances : Int) (warm : Nat → Bool)
    (s : ChromePool) (h : Reachable chanLimit maxInstances warm s) :
    s.cap = (effectiveInstances maxInstances).toNat ∧
      s.pool.length + s.out.length = s.cap ∧ (s.pool ++ s.out).Nodup := by
  induction h with
  | init r h =>
    rw [NewChromePool_eq chanLimit maxInstances warm
      (NewChromePool_returned chanLimit maxInstances warm r h)] at h
    simp only [Outcome.returned.injEq] at h
    subst h
    simp [List.nodup_range]
  | get s s1 c _ h ih =>
    obtain ⟨rest, hp, hs1⟩ := Get_eq_some s s1 c h
    obtain ⟨hcap, hlen, hnd⟩ := ih
    subst hs1
    rw [hp] at hlen hnd
    refine ⟨hcap, ?_, ?_⟩
    · simp at hlen ⊢; omega
    · have hperm : (rest ++ c :: s.out).Perm (c :: rest ++ s.out) := by
        simp
      exact hperm.nodup_iff.mpr hnd
  | ret s s1 c _ hc h ih =>
    obtain ⟨_, hs1⟩ := Return_eq_some s s1 c h
    obtain ⟨hcap, hlen, hnd⟩ := ih
    subst hs1
    refine ⟨hcap, ?_, ?_⟩
    · have hpos : 0 < s.out.length := List.length_pos_of_mem hc
      simp [List.length_erase_of_mem hc]; omega
    · have h1 : (c :: s.out.erase c).Perm s.out := (List.perm_cons_erase hc).symm
      have hperm : (s.pool ++ [c] ++ s.out.erase c).Perm (s.pool ++ s.out) := by
        simpa using (List.Perm.append_left s.pool h1)
      exact hperm.nodup_iff.mpr hnd

/-! ## `Atoi` reads back the decimal numerals -/

theorem digitVal_digitChar : ∀ k, k < 10 → digitVal (Nat.digitChar k) = some k := by
  decide

theorem digitVal_sign (c : Char) (d : Nat) (h : digitVal c = some d) :
    (c == '-') = false ∧ (c == '+') = false := by
  constructor
  · by_cases hc : c = '-'
    · subst hc
      have hnone : digitVal '-' = none := by decide
      rw [hnone] at h
      exact absurd h (by simp)
    · simpa using hc
  · by_cases hc : c = '+'
    · subst hc
      have hnone : digitVal '+' = none := by decide
      rw [hnone] at h
      exact absurd h (by simp)
    · simpa using hc

theorem parseDigitsAux_toDigitsCore :
    ∀ (fuel n : Nat) (ds : List Char), n < fuel →
      parseDigitsAux (Nat.toDigitsCore 10 fuel n ds) 0 = parseDigitsAux ds n := by
  intro fuel
  induction fuel with
  | zero => intro n ds h; omega
  | succ fuel ih =>
    intro n ds h
    simp only [Nat.toDigitsCore]
    have hd := digitVal_digitChar (n % 10) (Nat.mod_lt _ (by decide))
    split
    · rename_i h0
      have hn : n % 10 = n := Nat.mod_eq_of_lt (by omega)
      rw [hn] at hd ⊢
      simp only [parseDigitsAux, hd]
      simp
    · rename_i h0
      rw [ih (n / 10) _ (by omega)]
      simp only [parseDigitsAux, hd]
      congr 1
      omega

theorem toDigitsCore_ne_nil :
    ∀ (fuel n : Nat) (ds : List Char), ds ≠ [] → Nat.toDigitsCore 10 fuel n ds ≠ [] := by
  intro fuel
  induction fuel with
  | zero => intro n ds h; simpa [Nat.toDigitsCore] using h
  | succ fuel ih =>
    intro n ds _
    simp only [Nat.toDigitsCore]
    split
    · simp
    · exact ih _ _ (by simp)

theorem toDigits_ne_nil (n : Nat) : Nat.toDigits 10 n ≠ [] := by
  simp only [Nat.toDigits, Nat.toDigitsCore]
  split
  · simp
  · exact toDigitsCore_ne_nil _ _ _ (by simp)

theorem parseDigits_toDigits (n : Nat) : parseDigits (Nat.toDigits 10 n) = some n := by
  have h := parseDigitsAux_toDigitsCore (n + 1) n [] (by omega)
  have hne := toDigits_ne_nil n
  unfold parseDigits
  split
  · rename_i heq; exact absurd heq hne
  · simpa [Nat.toDigits, parseDigitsAux] using h

theorem Atoi_toString (n : Nat) (h : n < 2 ^ 63) : Atoi (toString n) = some (n : Int) := by
  have hp := parseDigits_toDigits n
  have hl : (toString n).toList = Nat.toDigits 10 n := by
    simp [toString, Nat.repr, String.toList, List.asString]
  unfold Atoi
  rw [hl]
  cases hds : Nat.toDigits 10 n with
  | nil => exact absurd hds (toDigits_ne_nil n)
  | cons c rest =>
    rw [hds] at hp
    have hdig : ∃ d, digitVal c = some d := by
      cases hc : digitVal c with
      | none => simp [parseDigits, parseDigitsAux, hc] at hp
      | some d => exact ⟨d, rfl⟩
    obtain ⟨d, hd⟩ := hdig
    obtain ⟨h1, h2⟩ := digitVal_sign c d hd
    have h63 : n < 9223372036854775808 := by simpa using h
    simp [h1, h2, hp, h63]

/-! ## Shutdown -/

theorem drainLoop_bound (env : Nat → SelectEnv) (cap : Nat) :
    ∀ (n i : Nat) (buf waiting cancelled : List Ctx) (closed : Nat),
      closed = cancelled.length →
      (drainLoop env cap n i buf waiting cancelled closed).closed =
          (drainLoop env cap n i buf waiting cancelled closed).cancelled.length ∧
        (drainLoop env cap n i buf waiting cancelled closed).cancelled.length ≤
          cancelled.length + n := by
  intro n
  induction n with
  | zero => intro i buf waiting cancelled closed h; simp [drainLoop, h]
  | succ n ih =>
    intro i buf waiting cancelled closed h
    simp only [drainLoop]
    split
    · simp [h]
    · split
      · simp [h]
      · rename_i ctx rest _
        have hih := ih (i + 1)
          (List.take cap (rest ++ List.drop cap (buf ++ waiting ++ (env i).arrivals)))
          (List.drop cap (rest ++ List.drop cap (buf ++ waiting ++ (env i).arrivals)))
          (cancelled ++ [ctx]) (closed + 1) (by simp [h])
        refine ⟨hih.1, ?_⟩
        have h2 := hih.2
        rw [List.length_append, List.length_singleton] at h2
        omega

theorem drainLoop_short (env : Nat → SelectEnv) (cap : Nat)
    (hquiet : ∀ i, (env i).arrivals = []) (hfire : ∀ i, (env i).timeoutFirst = false) :
    ∀ (n i : Nat) (buf cancelled : List Ctx) (closed : Nat),
      buf.length < n → buf.length ≤ cap →
      drainLoop env cap n i buf [] cancelled closed =
        { cancelled := cancelled ++ buf, closed := closed + buf.length, timedOut := true,
          report := some (closed + buf.length, cap), buffer := [] } := by
  intro n
  induction n with
  | zero => intro i buf cancelled closed h; omega
  | succ n ih =>
    intro i buf cancelled closed hlt hle
    simp only [drainLoop, hquiet, hfire, List.append_nil, List.take_of_length_le hle,
      List.drop_of_length_le hle]
    cases buf with
    | nil => simp [chanRecv]
    | cons c rest =>
      simp only [List.length_cons] at hlt hle
      have hr : rest.length ≤ cap := by omega
      simp only [chanRecv, Bool.false_eq_true, if_false, List.take_of_length_le hr,
        List.drop_of_length_le hr]
      rw [ih (i + 1) rest (cancelled ++ [c]) (closed + 1) (by omega) (by omega)]
      simp [Nat.add_assoc, Nat.add_comm 1]

theorem drainLoop_full (env : Nat → SelectEnv) (cap : Nat)
    (hfire : ∀ i, (env i).timeoutFirst = false) :
    ∀ (n i : Nat) (buf waiting cancelled : List Ctx) (closed : Nat),
      n ≤ buf.length → n ≤ cap →
      (drainLoop env cap n i buf waiting cancelled closed).cancelled = cancelled ++ buf.take n ∧
        (drainLoop env cap n i buf waiting cancelled closed).closed = closed + n ∧
        (drainLoop env cap n i buf waiting cancelled closed).timedOut = false ∧
        (drainLoop env cap n i buf waiting cancelled closed).report = none := by
  intro n
  induction n with
  | zero => intro i buf waiting cancelled closed _ _; simp [drainLoop]
  | succ n ih =>
    intro i buf waiting cancelled closed hlen hcap
    cases buf with
    | nil => simp at hlen
    | cons c rest =>
      simp only [List.length_cons] at hlen
      obtain ⟨k, hk⟩ : ∃ k, cap = k + 1 := ⟨cap - 1, by omega⟩
      subst hk
      simp only [drainLoop, hfire, List.cons_append, List.take_succ_cons, chanRecv,
        Bool.false_eq_true, if_false]
      have hlen2 : n ≤ (List.take (k + 1) (List.take k (rest ++ waiting ++ (env i).arrivals) ++
          List.drop (k + 1) (c :: (rest ++ waiting ++ (env i).arrivals)))).length := by
        simp only [List.length_take, List.length_append]
        omega
      have hih := ih (i + 1)
        (List.take (k + 1) (List.take k (rest ++ waiting ++ (env i).arrivals) ++
          List.drop (k + 1) (c :: (rest ++ waiting ++ (env i).arrivals))))
        (List.drop (k + 1) (List.take k (rest ++ waiting ++ (env i).arrivals) ++
          List.drop (k + 1) (c :: (rest ++ waiting ++ (env i).arrivals))))
        (cancelled ++ [c]) (closed + 1) hlen2 (by omega)
      have htake : List.take n (List.take (k + 1)
          (List.take k (rest ++ waiting ++ (env i).arrivals) ++
            List.drop (k + 1) (c :: (rest ++ waiting ++ (env i).arrivals)))) =
          List.take n rest := by
        rw [List.take_take, Nat.min_eq_left (by omega),
          List.take_append_of_le_length (by simp only [List.length_take, List.length_append]; omega),
          List.take_take, Nat.min_eq_left (by omega), List.append_assoc,
          List.take_append_of_le_length (by omega)]
      rw [htake] at hih
      refine ⟨?_, ?_, hih.2.2.1, hih.2.2.2⟩
      · rw [hih.1]; simp
      · rw [hih.2.1]; omega

/-! ## Readiness polling -/

theorem htmlToImageWithServerPoll_eq (pg : Page) :
    htmlToImageWithServerPoll pg = htmlToImagePoll pg := rfl

/-- Claim C1: in every state reachable from `NewChromePool` by `Get` and by `Return`
of a checked-out context, the capacity is the one fixed at construction and is
at least 1, the buffered contexts plus the checked-out ones number exactly the
capacity, so at most that many are checked out; `Get` can proceed exactly when
the buffer is non-empty; a `Return` of a checked-out context never blocks; and
when as many contexts as the capacity are checked out the buffer is empty, a
further `Get` blocks, and it can proceed again after any such `Return`. -/
theorem pool_conservation (chanLimit : Nat) (maxInstances : Int) (warm : Nat → Bool)
    (s : ChromePool) (h : Reachable chanLimit maxInstances warm s) :
    s.cap = (effectiveInstances maxInstances).toNat ∧ 1 ≤ s.cap ∧
      s.pool.length + s.out.length = s.cap ∧ s.out.length ≤ s.cap ∧
      (s.Get = none ↔ s.pool = []) ∧
      (∀ c ∈ s.out, (s.Return c).isSome = true) ∧
      (s.out.length = s.cap →
        s.pool = [] ∧ s.Get = none ∧
          ∀ c ∈ s.out, ∃ s1, s.Return c = some s1 ∧ s1.Get ≠ none) := by
  obtain ⟨hcap, hlen, _⟩ := reachable_inv chanLimit maxInstances warm s h
  have hpos : 1 ≤ s.cap := hcap ▸ effectiveInstances_pos maxInstances
  have hroom : ∀ c ∈ s.out, s.pool.length < s.cap := by
    intro c hc
    have : 0 < s.out.length := List.length_pos_of_mem hc
    omega
  refine ⟨hcap, hpos, hlen, by omega, Get_eq_none s, ?_, ?_⟩
  · intro c hc
    rw [Return_of_room s c (hroom c hc)]
    rfl
  · intro hfull
    have hnil : s.pool = [] := List.length_eq_zero.mp (by omega)
    refine ⟨hnil, (Get_eq_none s).mpr hnil, ?_⟩
    intro c hc
    refine ⟨_, Return_of_room s c (hroom c hc), ?_⟩
    rw [Ne, Get_eq_none]
    simp

/-- Witness for C1: the pool of capacity 2 after one `Get`. -/
theorem pool_conservation_witness :
    Reachable goChanLimit 2 (fun _ => true)
        { cap := 2, pool := [1], out := [0], allocatorCancels := 0 } ∧
      [1].length + [0].length = 2 :=
  have hr : Reachable goChanLimit 2 (fun _ => true)
      { cap := 2, pool := [1], out := [0], allocatorCancels := 0 } :=
    Reachable.get { cap := 2, pool := [0, 1], out := [], allocatorCancels := 0 } _ 0
      (Reachable.init
        { pool := { cap := 2, pool := [0, 1], out := [], allocatorCancels := 0 },
          err := none, warnings := [] } (by decide))
      (by decide)
  ⟨hr, (pool_conservation goChanLimit 2 (fun _ => true) _ hr).2.2.1⟩

/-- Claim C2: in every state reachable from `NewChromePool` by `Get` and by `Return`
of a checked-out context, the buffer holds no context twice, no context is
checked out twice (each outstanding `Get` holds a context of its own), no
context is both buffered and checked out, and the context a further `Get`
hands out is held by nobody. -/
theorem pool_exclusive (chanLimit : Nat) (maxInstances : Int) (warm : Nat → Bool)
    (s : ChromePool) (h : Reachable chanLimit maxInstances warm s) :
    s.pool.Nodup ∧ s.out.Nodup ∧ (∀ c, c ∈ s.pool → c ∉ s.out) ∧
      (∀ c s1, s.Get = some (c, s1) → c ∉ s.out ∧ s1.out.Nodup) := by
  obtain ⟨_, _, hnd⟩ := reachable_inv chanLimit maxInstances warm s h
  rw [List.nodup_append] at hnd
  obtain ⟨hp, ho, hdis⟩ := hnd
  refine ⟨hp, ho, fun c hc => hdis hc, ?_⟩
  intro c s1 hget
  obtain ⟨rest, hpool, hs1⟩ := Get_eq_some s s1 c hget
  have hmem : c ∈ s.pool := by rw [hpool]; exact List.mem_cons_self c rest
  have hnot : c ∉ s.out := hdis hmem
  subst hs1
  exact ⟨hnot, List.nodup_cons.mpr ⟨hnot, ho⟩⟩

/-- Witness for C2: the pool of capacity 2 after two `Get`s. -/
theorem pool_exclusive_witness :
    Reachable goChanLimit 2 (fun _ => true)
        { cap := 2, pool := [], out := [1, 0], allocatorCancels := 0 } ∧
      [1, 0].Nodup :=
  have hr : Reachable goChanLimit 2 (fun _ => true)
      { cap := 2, pool := [], out := [1, 0], allocatorCancels := 0 } :=
    Reachable.get { cap := 2, pool := [1], out := [0], allocatorCancels := 0 } _ 1
      (Reachable.get { cap := 2, pool := [0, 1], out := [], allocatorCancels := 0 } _ 0
        (Reachable.init
          { pool := { cap := 2, pool := [0, 1], out := [], allocatorCancels := 0 },
            err := none, warnings := [] } (by decide))
        (by decide))
      (by decide)
  ⟨hr, (pool_exclusive goChanLimit 2 (fun _ => true) _ hr).2.1⟩

/-- Claim C3 as the code has it: for every requested size whose effective value
(the size, or 5 when it is not positive) the runtime accepts as a channel size,
and every combination of warm-up outcomes, `NewChromePool` returns (no send of
the fill loop blocks), its error is nil, and the buffer holds exactly the
contexts of the loop iterations `0 .. cap-1`, as many as the capacity, whether
their warm-up failed or not; each failed warm-up is only logged. -/
theorem NewChromePool_fills (chanLimit : Nat) (maxInstances : Int) (warm : Nat → Bool)
    (hfit : (if maxInstances ≤ 0 then 5 else maxInstances) ≤ (chanLimit : Int)) :
    ∃ r, NewChromePool chanLimit maxInstances warm = .returned r ∧ r.err = none ∧
      (r.pool.cap : Int) = (if maxInstances ≤ 0 then 5 else maxInstances) ∧
      r.pool.pool = List.range r.pool.cap ∧ r.pool.pool.length = r.pool.cap ∧
      r.pool.out = [] ∧
      r.warnings = ((List.range r.pool.cap).filter (fun i => !warm i)).map (· + 1) := by
  have hle : (effectiveInstances maxInstances).toNat ≤ chanLimit := by
    simp only [effectiveInstances]
    split <;> omega
  refine ⟨_, NewChromePool_eq chanLimit maxInstances warm hle, rfl, ?_, rfl, by simp, rfl, rfl⟩
  simp only [effectiveInstances]
  split <;> omega

/-- Witness for the amended C3: three instances, the warm-up of the second one
fails. -/
theorem NewChromePool_fills_witness :
    ∃ r, NewChromePool goChanLimit 3 (fun i => i != 1) = .returned r ∧ r.err = none ∧
      (r.pool.cap : Int) = (if (3 : Int) ≤ 0 then 5 else 3) ∧
      r.pool.pool = List.range r.pool.cap ∧ r.pool.pool.length = r.pool.cap ∧
      r.pool.out = [] ∧
      r.warnings = ((List.range r.pool.cap).filter (fun i => !(i != 1))).map (· + 1) :=
  NewChromePool_fills goChanLimit 3 (fun i => i != 1) (by decide)

/-- Counterexample to C3: for the requested size `2^62` the call
`make(chan context.Context, maxInstances)` panics, so `NewChromePool` returns
neither a pool nor an error value. -/
theorem NewChromePool_huge_counterexample :
    NewChromePool goChanLimit 4611686018427387904 (fun _ => true) =
        .panicked "makechan: size out of range" ∧
      ¬ ∃ r, NewChromePool goChanLimit 4611686018427387904 (fun _ => true) = .returned r :=
  have h : NewChromePool goChanLimit 4611686018427387904 (fun _ => true) =
      .panicked "makechan: size out of range" :=
    NewChromePool_panics goChanLimit 4611686018427387904 (fun _ => true) (by decide)
  ⟨h, fun ⟨r, hr⟩ => by rw [h] at hr; exact absurd hr (by simp)⟩

/-- Claim C9: in a pool state with an empty buffer (a `Get` is waiting) and a context
`c` held by a caller, `Return c` proceeds and leaves exactly `c` in the buffer,
the waiting `Get` then returns exactly `c`, and afterwards the buffer is empty
again, the capacity is unchanged and the checked-out contexts are the same as
before. -/
theorem return_then_get (s : ChromePool) (c : Ctx) (hcap : 0 < s.cap)
    (hbuf : s.pool = []) (hc : c ∈ s.out) :
    ∃ s1 s2, s.Return c = some s1 ∧ s1.pool = [c] ∧ s1.Get = some (c, s2) ∧
      s2.pool = [] ∧ s2.cap = s.cap ∧ s2.out = c :: s.out.erase c ∧ s2.out.Perm s.out := by
  have hroom : s.pool.length < s.cap := by rw [hbuf]; exact hcap
  refine ⟨{ s with pool := s.pool ++ [c], out := s.out.erase c },
    { s with pool := [], out := c :: s.out.erase c },
    Return_of_room s c hroom, by simp [hbuf], ?_, rfl, rfl, rfl, ?_⟩
  · simp [ChromePool.Get, chanRecv, hbuf]
  · exact (List.perm_cons_erase hc).symm

/-- Witness for C9: both contexts of a pool of capacity 2 are checked out and
context 0 is returned. -/
theorem return_then_get_witness :
    ∃ s1 s2, ChromePool.Return { cap := 2, pool := [], out := [1, 0], allocatorCancels := 0 } 0
        = some s1 ∧ s1.pool = [0] ∧ s1.Get = some (0, s2) ∧
      s2.pool = [] ∧ s2.cap = 2 ∧ s2.out = 0 :: [1, 0].erase 0 ∧ s2.out.Perm [1, 0] :=
  return_then_get { cap := 2, pool := [], out := [1, 0], allocatorCancels := 0 } 0
    (by decide) rfl (by decide)

/-! ## Configuration of the capacity -/

theorem capacityOf_NewChromePool (chanLimit : Nat) (maxInstances : Int) (warm : Nat → Bool)
    (hfit : (if maxInstances ≤ 0 then 5 else maxInstances) ≤ (chanLimit : Int)) :
    capacityOf (NewChromePool chanLimit maxInstances warm) =
      some (if maxInstances ≤ 0 then 5 else maxInstances) := by
  have hle : (effectiveInstances maxInstances).toNat ≤ chanLimit := by
    simp only [effectiveInstances]
    split <;> omega
  rw [NewChromePool_eq chanLimit maxInstances warm hle]
  simp only [capacityOf, effectiveInstances]
  congr 1
  split <;> omega

theorem NewChromePool_over_limit (chanLimit : Nat) (maxInstances : Int) (warm : Nat → Bool)
    (hbig : (chanLimit : Int) < maxInstances) :
    NewChromePool chanLimit maxInstances warm = .panicked "makechan: size out of range" := by
  apply NewChromePool_panics
  simp only [effectiveInstances]
  split <;> omega

theorem getPoolSizeFromEnv_eq (setting : Option String) :
    getPoolSizeFromEnv setting =
      match Atoi (Getenv setting) with
      | some n => if 0 < n then n else 5
      | none => 5 := by
  unfold getPoolSizeFromEnv
  by_cases he : Getenv setting = ""
  · simp only [he, if_true]
    rfl
  · simp only [he, if_false]
    cases Atoi (Getenv setting) with
    | none => rfl
    | some n =>
      simp only
      by_cases hn : n ≤ 0
      · rw [if_pos hn, if_neg (by omega)]
      · rw [if_neg hn, if_pos (by omega)]

theorem getPoolSizeFromEnv_pos (setting : Option String) : 0 < getPoolSizeFromEnv setting := by
  rw [getPoolSizeFromEnv_eq]
  cases Atoi (Getenv setting) with
  | none => decide
  | some n =>
    simp only
    split
    · assumption
    · decide

theorem mainPool_capacity (chanLimit : Nat) (setting : Option String) (warm : Nat → Bool)
    (hfit : getPoolSizeFromEnv setting ≤ (chanLimit : Int)) :
    capacityOf (mainPool chanLimit setting warm) = some (getPoolSizeFromEnv setting) := by
  have hpos := getPoolSizeFromEnv_pos setting
  unfold mainPool
  rw [capacityOf_NewChromePool chanLimit _ warm (by rw [if_neg (by omega)]; exact hfit),
    if_neg (by omega)]

/-- Claim C7 as the code has it, on a machine whose runtime accepts channels of
at least the default size 5 (`chanLimit` is the largest size `make(chan ...)`
accepts).  The capacity of the pool built at startup is 5 when
`CHROME_POOL_SIZE` is absent or empty (both read as the empty string, which
`strconv.Atoi` rejects), is rejected by `Atoi`, is zero or is negative; it is
the configured number `n` when `Atoi` accepts the setting, `n > 0` and `n` does
not exceed `chanLimit`; for a larger `n` the call `make(chan ...)` panics and
no pool is built.  The decimal numeral of every `n` with `0 < n <= chanLimit`,
`n < 2^63`, is accepted and gives capacity `n`.  `NewChromePool` called directly
builds a pool of capacity 5 for every `maxInstances <= 0`, of capacity
`maxInstances` when `0 < maxInstances <= chanLimit`, and panics above that. -/
theorem pool_capacity_setting (chanLimit : Nat) (setting : Option String)
    (maxInstances : Int) (warm : Nat → Bool) (h5 : 5 ≤ chanLimit) :
    (Atoi (Getenv setting) = none →
        capacityOf (mainPool chanLimit setting warm) = some 5) ∧
      (∀ n, Atoi (Getenv setting) = some n → n ≤ 0 →
        capacityOf (mainPool chanLimit setting warm) = some 5) ∧
      (∀ n, Atoi (Getenv setting) = some n → 0 < n → n ≤ (chanLimit : Int) →
        capacityOf (mainPool chanLimit setting warm) = some n) ∧
      (∀ n, Atoi (Getenv setting) = some n → (chanLimit : Int) < n →
        mainPool chanLimit setting warm = .panicked "makechan: size out of range") ∧
      Getenv none = "" ∧ Atoi "" = none ∧
      capacityOf (mainPool chanLimit none warm) = some 5 ∧
      capacityOf (mainPool chanLimit (some "") warm) = some 5 ∧
      capacityOf (mainPool chanLimit (some "abc") warm) = some 5 ∧
      capacityOf (mainPool chanLimit (some "0") warm) = some 5 ∧
      capacityOf (mainPool chanLimit (some "-3") warm) = some 5 ∧
      (∀ n : Nat, 0 < n → n ≤ chanLimit → n < 2 ^ 63 →
        capacityOf (mainPool chanLimit (some (toString n)) warm) = some (n : Int)) ∧
      (maxInstances ≤ 0 →
        capacityOf (NewChromePool chanLimit maxInstances warm) = some 5) ∧
      (0 < maxInstances → maxInstances ≤ (chanLimit : Int) →
        capacityOf (NewChromePool chanLimit maxInstances warm) = some maxInstances) ∧
      ((chanLimit : Int) < maxInstances →
        NewChromePool chanLimit maxInstances warm =
          .panicked "makechan: size out of range") := by
  have hfive : ∀ st : Option String, getPoolSizeFromEnv st = 5 →
      capacityOf (mainPool chanLimit st warm) = some 5 := by
    intro st h
    rw [mainPool_capacity chanLimit st warm (by rw [h]; omega), h]
  refine ⟨?_, ?_, ?_, ?_, rfl, by decide, hfive _ (by decide), hfive _ (by decide),
    hfive _ (by decide), hfive _ (by decide), hfive _ (by decide), ?_, ?_, ?_, ?_⟩
  · intro h
    exact hfive setting (by rw [getPoolSizeFromEnv_eq, h])
  · intro n h hn
    exact hfive setting (by rw [getPoolSizeFromEnv_eq, h]; simp only; rw [if_neg (by omega)])
  · intro n h hpos hle
    have hsz : getPoolSizeFromEnv setting = n := by
      rw [getPoolSizeFromEnv_eq, h]; simp only; rw [if_pos hpos]
    rw [mainPool_capacity chanLimit setting warm (by rw [hsz]; exact hle), hsz]
  · intro n h hbig
    have hsz : getPoolSizeFromEnv setting = n := by
      rw [getPoolSizeFromEnv_eq, h]; simp only; rw [if_pos (by omega)]
    unfold mainPool
    rw [hsz]
    exact NewChromePool_over_limit chanLimit n warm hbig
  · intro n hpos hle hlt
    have hsz : getPoolSizeFromEnv (some (toString n)) = (n : Int) := by
      rw [getPoolSizeFromEnv_eq]
      simp only [Getenv, Option.getD_some, Atoi_toString n hlt]
      rw [if_pos (by omega)]
    rw [mainPool_capacity chanLimit _ warm (by rw [hsz]; omega), hsz]
  · intro h
    rw [capacityOf_NewChromePool chanLimit maxInstances warm (by rw [if_pos h]; omega), if_pos h]
  · intro hpos hle
    rw [capacityOf_NewChromePool chanLimit maxInstances warm
      (by rw [if_neg (by omega)]; exact hle), if_neg (by omega)]
  · exact NewChromePool_over_limit chanLimit maxInstances warm

/-- Witness for the amended C7: the setting is the decimal numeral of 12. -/
theorem pool_capacity_setting_witness :
    capacityOf (mainPool goChanLimit (some (toString 12)) (fun _ => true)) =
      some ((12 : Nat) : Int) :=
  (pool_capacity_setting goChanLimit none 0 (fun _ => true) (by decide)).2.2.2.2.2.2.2.2.2.2.2.1
    12 (by decide) (by decide) (by decide)

/-- Counterexample to C7: the setting `9223372036854775807` is accepted by
`strconv.Atoi` as an integer greater than zero, and the pool built at startup
does not have that capacity: `make(chan ...)` panics and no pool is built. -/
theorem pool_capacity_huge_counterexample :
    Atoi "9223372036854775807" = some 9223372036854775807 ∧
      getPoolSizeFromEnv (some "9223372036854775807") = 9223372036854775807 ∧
      mainPool goChanLimit (some "9223372036854775807") (fun _ => true) =
        .panicked "makechan: size out of range" ∧
      capacityOf (mainPool goChanLimit (some "9223372036854775807") (fun _ => true)) = none := by
  have hsz : getPoolSizeFromEnv (some "9223372036854775807") = 9223372036854775807 := by
    decide
  have hp : mainPool goChanLimit (some "9223372036854775807") (fun _ => true) =
      .panicked "makechan: size out of range" := by
    unfold mainPool
    rw [hsz]
    exact NewChromePool_over_limit goChanLimit _ _ (by decide)
  refine ⟨by decide, hsz, hp, ?_⟩
  rw [hp]
  rfl

/-! ## The render step and the handler -/

theorem renderStep_true (E : Env) (browserCtx : Ctx) (htmlContent : String) :
    renderStep E browserCtx htmlContent true =
      (E.htmlToImageWithServer browserCtx htmlContent, [Strategy.localServe]) := by
  simp [renderStep, callStrategy]

theorem renderStep_false (E : Env) (browserCtx : Ctx) (htmlContent : String) :
    renderStep E browserCtx htmlContent false =
      (match E.htmlToImage browserCtx htmlContent with
        | .ok imgBytes => (.ok imgBytes, [Strategy.inlineEmbed])
        | .error _ => (E.htmlToImageWithServer browserCtx htmlContent,
            [Strategy.inlineEmbed, Strategy.localServe])) := by
  cases h : E.htmlToImage browserCtx htmlContent <;> simp [renderStep, callStrategy, h]

/-- Claim C4: the render step of `handleConvert`.  With `use_local_server` false it
calls inline-embed first and returns its image when it succeeds, and only when
it fails calls local-serve once and returns that result; with
`use_local_server` true it calls local-serve once and never inline-embed.  The
step ends in an error exactly when both strategies fail (default path) or
local-serve fails (forced path), and no strategy is called twice. -/
theorem renderStep_fallback (E : Env) (browserCtx : Ctx) (htmlContent : String)
    (useLocalServer : Bool) :
    renderStep E browserCtx htmlContent true =
        (E.htmlToImageWithServer browserCtx htmlContent, [Strategy.localServe]) ∧
      renderStep E browserCtx htmlContent false =
        (match E.htmlToImage browserCtx htmlContent with
          | .ok imgBytes => (.ok imgBytes, [Strategy.inlineEmbed])
          | .error _ => (E.htmlToImageWithServer browserCtx htmlContent,
              [Strategy.inlineEmbed, Strategy.localServe])) ∧
      failed (renderStep E browserCtx htmlContent false).1 =
        (failed (E.htmlToImage browserCtx htmlContent) &&
          failed (E.htmlToImageWithServer browserCtx htmlContent)) ∧
      failed (renderStep E browserCtx htmlContent true).1 =
        failed (E.htmlToImageWithServer browserCtx htmlContent) ∧
      (renderStep E browserCtx htmlContent useLocalServer).2.Nodup ∧
      (renderStep E browserCtx htmlContent useLocalServer).2.contains Strategy.inlineEmbed =
        !useLocalServer ∧
      (renderStep E browserCtx htmlContent useLocalServer).2.contains Strategy.localServe =
        (useLocalServer || failed (E.htmlToImage browserCtx htmlContent)) := by
  refine ⟨renderStep_true E browserCtx htmlContent, renderStep_false E browserCtx htmlContent,
    ?_, ?_, ?_⟩
  · rw [renderStep_false]
    cases h : E.htmlToImage browserCtx htmlContent <;> simp [failed]
  · rw [renderStep_true]
  · cases useLocalServer
    · rw [renderStep_false]
      cases h : E.htmlToImage browserCtx htmlContent <;> simp [failed]
    · rw [renderStep_true]
      simp

/-- Claim C5: `handleConvert` and the pool.  On the exits before the `Get` (method
other than POST, undecodable body) the handler returns without any call of
`Get` or `Return`, the pool untouched.  On every other request, when the buffer
holds a context, the handler finishes with the result of its body, whatever
exit the body takes (invalid base64, empty HTML, render failure, success), the
calls it made on the pool are exactly one `Get` and then one `Return` of the
very context that `Get` produced, the same contexts are available afterwards
(the borrowed one has moved to the end of the buffer) and the checked-out ones
are unchanged. -/
theorem handleConvert_returns_context (E : Env) (chromePool : TracedPool) (r : HttpRequest) :
    (r.Method ≠ "POST" →
        handleConvert E chromePool r =
          some ({ status := 405,
                  resp := { Success := false, Data := "", Error := "只支持 POST 请求" },
                  calls := [] }, chromePool)) ∧
      (∀ e, r.Method = "POST" → E.decodeJSON r.Body = .error e →
        handleConvert E chromePool r =
          some ({ status := 400,
                  resp := { Success := false, Data := "", Error := "无效的请求格式: " ++ e },
                  calls := [] }, chromePool)) ∧
      (∀ req c rest, r.Method = "POST" → E.decodeJSON r.Body = .ok req →
        chromePool.pool.pool = c :: rest → chromePool.pool.pool.length ≤ chromePool.pool.cap →
        ∃ pool2, handleConvert E chromePool r = some (convertBody E c req, pool2) ∧
          pool2.log = chromePool.log ++ [PoolEvent.get c, PoolEvent.ret c] ∧
          pool2.pool.pool = rest ++ [c] ∧
          pool2.pool.pool.Perm chromePool.pool.pool ∧
          pool2.pool.out = chromePool.pool.out ∧
          pool2.pool.cap = chromePool.pool.cap) := by
  refine ⟨?_, ?_, ?_⟩
  · intro hm
    simp only [handleConvert, hm, ne_eq, not_false_eq_true, if_true]
  · intro e hm hj
    simp only [handleConvert, hm, hj, ne_eq, not_true_eq_false, if_false]
  · intro req c rest hm hj hp hlen
    have hroom : rest.length < chromePool.pool.cap := by
      rw [hp] at hlen
      simp at hlen
      omega
    refine ⟨{ pool := { chromePool.pool with pool := rest ++ [c] },
              log := chromePool.log ++ [PoolEvent.get c, PoolEvent.ret c] }, ?_, rfl, rfl, ?_,
      rfl, rfl⟩
    · simp [handleConvert, hm, hj, TracedPool.Get, TracedPool.Return, ChromePool.Get,
        ChromePool.Return, chanRecv, chanSend, hp, hroom]
    · rw [hp]
      simp

/-- Witness for C5: a request that is not a POST, a POST whose body does not
decode, and a POST with a broken image, on a pool of capacity 2. -/
theorem handleConvert_returns_context_witness :
    handleConvert brokenEnv demoPool { Method := "GET", Body := "" } =
        some ({ status := 405,
                resp := { Success := false, Data := "", Error := "只支持 POST 请求" },
                calls := [] }, demoPool) ∧
      handleConvert brokenEnv demoPool { Method := "POST", Body := "" } =
        some ({ status := 400,
                resp := { Success := false, Data := "", Error := "无效的请求格式: " ++ "EOF" },
                calls := [] }, demoPool) ∧
      ∃ pool2, handleConvert brokenEnv demoPool { Method := "POST", Body := "<img src=x>" } =
          some (convertBody brokenEnv 0
            { HTML := "<img src=x>", HTMLBase64 := "", UseLocalServer := false }, pool2) ∧
        pool2.log = demoPool.log ++ [PoolEvent.get 0, PoolEvent.ret 0] ∧
        pool2.pool.pool = [1] ++ [0] ∧
        pool2.pool.pool.Perm demoPool.pool.pool ∧
        pool2.pool.out = demoPool.pool.out ∧
        pool2.pool.cap = demoPool.pool.cap :=
  ⟨(handleConvert_returns_context brokenEnv demoPool { Method := "GET", Body := "" }).1
      (by decide),
   (handleConvert_returns_context brokenEnv demoPool { Method := "POST", Body := "" }).2.1
      "EOF" rfl rfl,
   (handleConvert_returns_context brokenEnv demoPool
      { Method := "POST", Body := "<img src=x>" }).2.2
      { HTML := "<img src=x>", HTMLBase64 := "", UseLocalServer := false } 0 [1]
      rfl rfl rfl (by decide)⟩

/-- Claim C6 as the code has it: `Shutdown` on a pool of capacity
`N = cap(p.pool)`.  Whatever contexts concurrent `Return`s send while it runs
and whenever the timer fires, it cancels at most `N` contexts (the counter
`closed` counts them) and calls the allocator's cancel function exactly once.
Provided no `select` takes the timeout case while a context can be received
(the 60 s have not passed before the buffered contexts are drained): when `M`
contexts (`0 < M <= N`) are outstanding and never returned, it cancels exactly
the `N - M` buffered contexts, then takes the timeout case reporting `N - M` of
`N` closed, and cancels the allocator; and when all `N` contexts are in the
buffer it cancels all `N` without taking the timeout case. -/
theorem Shutdown_drains (p : ChromePool) (env : Nat → SelectEnv) (M : Nat) :
    (p.Shutdown env).drain.cancelled.length ≤ p.cap ∧
      (p.Shutdown env).drain.closed = (p.Shutdown env).drain.cancelled.length ∧
      (p.Shutdown env).pool.allocatorCancels = p.allocatorCancels + 1 ∧
      ((∀ i, (env i).arrivals = []) → (∀ i, (env i).timeoutFirst = false) →
        0 < M → M ≤ p.cap → p.pool.length = p.cap - M →
        (p.Shutdown env).drain =
            { cancelled := p.pool, closed := p.cap - M, timedOut := true,
              report := some (p.cap - M, p.cap), buffer := [] } ∧
          (p.Shutdown env).pool.allocatorCancels = p.allocatorCancels + 1) ∧
      ((∀ i, (env i).timeoutFirst = false) → p.pool.length = p.cap →
        (p.Shutdown env).drain.cancelled = p.pool ∧
          (p.Shutdown env).drain.closed = p.cap ∧
          (p.Shutdown env).drain.timedOut = false ∧
          (p.Shutdown env).drain.report = none ∧
          (p.Shutdown env).pool.allocatorCancels = p.allocatorCancels + 1) := by
  have hb := drainLoop_bound env p.cap p.cap 0 p.pool [] [] 0 rfl
  refine ⟨by simpa [ChromePool.Shutdown] using hb.2, hb.1, rfl, ?_, ?_⟩
  · intro hquiet hfire hM hle hlen
    refine ⟨?_, rfl⟩
    simp only [ChromePool.Shutdown]
    rw [drainLoop_short env p.cap hquiet hfire p.cap 0 p.pool [] 0 (by omega) (by omega)]
    simp [hlen]
  · intro hfire hlen
    obtain ⟨h1, h2, h3, h4⟩ :=
      drainLoop_full env p.cap hfire p.cap 0 p.pool [] [] 0 (by omega) (Nat.le_refl _)
    refine ⟨?_, ?_, h3, h4, rfl⟩
    · simp only [ChromePool.Shutdown]
      rw [h1, ← hlen, List.take_length]
      simp
    · simp only [ChromePool.Shutdown]
      rw [h2]
      simp

/-- Counterexample to C6: all contexts of a pool of capacity 2 are in the
buffer, the first `chromedp.Cancel` lasts longer than 60 s and the second
`select` takes the timeout case; `Shutdown` cancels one context only, reports
1 of 2 closed and leaves the other context in the buffer. -/
theorem Shutdown_timer_counterexample :
    (ChromePool.Shutdown { cap := 2, pool := [0, 1], out := [], allocatorCancels := 0 }
        slowCancelEnv).drain =
      { cancelled := [0], closed := 1, timedOut := true, report := some (1, 2),
        buffer := [1] } ∧
    (ChromePool.Shutdown { cap := 2, pool := [0, 1], out := [], allocatorCancels := 0 }
        slowCancelEnv).drain.cancelled ≠ [0, 1] := by
  decide

/-- Witness for the amended C6: capacity 3 with contexts 0 and 1 buffered and context 2
outstanding and never returned; and capacity 2 with both contexts buffered. -/
theorem Shutdown_drains_witness :
    ((ChromePool.Shutdown { cap := 3, pool := [0, 1], out := [2], allocatorCancels := 0 }
          quietEnv).drain =
        { cancelled := [0, 1], closed := 2, timedOut := true, report := some (2, 3),
          buffer := [] } ∧
      (ChromePool.Shutdown { cap := 3, pool := [0, 1], out := [2], allocatorCancels := 0 }
          quietEnv).pool.allocatorCancels = 1) ∧
    ((ChromePool.Shutdown { cap := 2, pool := [0, 1], out := [], allocatorCancels := 0 }
          quietEnv).drain.cancelled = [0, 1] ∧
      (ChromePool.Shutdown { cap := 2, pool := [0, 1], out := [], allocatorCancels := 0 }
          quietEnv).drain.closed = 2 ∧
      (ChromePool.Shutdown { cap := 2, pool := [0, 1], out := [], allocatorCancels := 0 }
          quietEnv).drain.timedOut = false ∧
      (ChromePool.Shutdown { cap := 2, pool := [0, 1], out := [], allocatorCancels := 0 }
          quietEnv).drain.report = none ∧
      (ChromePool.Shutdown { cap := 2, pool := [0, 1], out := [], allocatorCancels := 0 }
          quietEnv).pool.allocatorCancels = 1) :=
  ⟨(Shutdown_drains { cap := 3, pool := [0, 1], out := [2], allocatorCancels := 0 }
      quietEnv 1).2.2.2.1 (fun _ => rfl) (fun _ => rfl) (by decide) (by decide) (by decide),
   (Shutdown_drains { cap := 2, pool := [0, 1], out := [], allocatorCancels := 0 }
      quietEnv 0).2.2.2.2 (fun _ => rfl) (by decide)⟩

theorem htmlToImagePoll_iff (pg : Page) :
    htmlToImagePoll pg = true ↔
      pg.readyState = "complete" ∧
        ∀ img ∈ pg.imgs, img.complete = true ∧ 0 < img.naturalHeight := by
  simp [htmlToImagePoll, List.all_eq_true]

/-- Claim C10 as the code has it: the script `POLL_FUNCTION` of config.go is true
whenever more than 2000 ms have elapsed since its first evaluation, and up to
then is true exactly when every `img` reports `complete`; the strategies do not
poll it: the script that `HTMLToImage` and `HTMLToImageWithServer` poll is true
exactly when `document.readyState` is `complete` and every `img` is complete
with a natural height above 0, and an evaluation of it before the 15 s polling
timeout ends the poll successfully exactly when the script is true, whatever
the time elapsed. -/
theorem poll_predicates (w : Window) (now : Int) (pg : Page) (elapsed : Nat) :
    (2000 < pollElapsed w now → (POLL_FUNCTION w now pg).1 = true) ∧
      (pollElapsed w now ≤ 2000 →
        (POLL_FUNCTION w now pg).1 = pg.imgs.all (fun img => img.complete)) ∧
      (htmlToImagePoll pg = true ↔
        pg.readyState = "complete" ∧
          ∀ img ∈ pg.imgs, img.complete = true ∧ 0 < img.naturalHeight) ∧
      (htmlToImageWithServerPoll pg = true ↔
        pg.readyState = "complete" ∧
          ∀ img ∈ pg.imgs, img.complete = true ∧ 0 < img.naturalHeight) ∧
      (elapsed < 15000 →
        ((chromedpPoll htmlToImagePoll 15000 [(elapsed, pg)]).1 = .ok () ↔
            htmlToImagePoll pg = true) ∧
          ((chromedpPoll htmlToImageWithServerPoll 15000 [(elapsed, pg)]).1 = .ok () ↔
            htmlToImageWithServerPoll pg = true)) := by
  refine ⟨?_, ?_, htmlToImagePoll_iff pg, htmlToImagePoll_iff pg, ?_⟩
  · intro h
    unfold pollElapsed at h
    simp [POLL_FUNCTION, h]
  · intro h
    unfold pollElapsed at h
    have hn : ¬ (now - pollStart w now > 2000) := by omega
    simp only [POLL_FUNCTION, hn, if_false]
    cases pg.imgs <;> simp
  · intro h
    have hn : ¬ (15000 ≤ elapsed) := by omega
    constructor
    · cases hp : htmlToImagePoll pg <;> simp [chromedpPoll, hn, hp]
    · cases hp : htmlToImageWithServerPoll pg <;> simp [chromedpPoll, hn, hp]

/-- Witness for the amended C10: 2500 ms after the poll began, on the page with
one broken image. -/
theorem poll_predicates_witness :
    (POLL_FUNCTION { pollStartTime := some 1000 } 3500 brokenPage).1 = true ∧
      ((chromedpPoll htmlToImagePoll 15000 [(2500, brokenPage)]).1 = .ok () ↔
        htmlToImagePoll brokenPage = true) :=
  ⟨(poll_predicates { pollStartTime := some 1000 } 3500 brokenPage 2500).1 (by decide),
   ((poll_predicates { pollStartTime := some 1000 } 3500 brokenPage 2500).2.2.2.2
      (by decide)).1⟩

/-- Counterexample to C10: 2500 ms after its poll began each strategy evaluates
its script on a loaded page with one broken image; the script is false and the
poll goes on to its timeout, although `POLL_FUNCTION` is true at that moment. -/
theorem poll_two_seconds_counterexample :
    htmlToImagePoll brokenPage = false ∧
      htmlToImageWithServerPoll brokenPage = false ∧
      chromedpPoll htmlToImagePoll 15000 [(2500, brokenPage)] =
        (.error "waiting for function failed: timeout", 15000) ∧
      chromedpPoll htmlToImageWithServerPoll 15000 [(2500, brokenPage)] =
        (.error "waiting for function failed: timeout", 15000) ∧
      (POLL_FUNCTION { pollStartTime := some 1000 } 3500 brokenPage).1 = true ∧
      pollElapsed { pollStartTime := some 1000 } 3500 = 2500 := by
  refine ⟨by decide, by decide, rfl, rfl, by decide, by decide⟩

end Html2Image
